import Mathlib

/-!
A shallow embedding of the grepples program (grepples.go, reader.go, and the
utility file providing leftN and ttyWidth): a parallel S3-bucket grep tool.
External collaborators (the AWS S3 client, the Go regexp engine, the
gzip/bzip2 codecs, terminal width detection) are modelled at their interface
boundary; every other definition is translated from the source.

Modelling conventions:
- Go machine integers (int, int64) are modelled as Int; no arithmetic in the
  program can overflow at the values it handles.
- Go strings are byte strings; the embedding uses Lean String.  UTF-8 is an
  order-preserving encoding, so Go's byte-wise string comparison agrees with
  Lean's character-wise comparison on valid UTF-8 data, and byte positions of
  the ASCII characters the program inspects coincide with characters.
- log.Fatalf (nonzero process exit) is modelled as Except.error.
- A runtime panic is modelled as Option-valued output being none.
-/

namespace Grepples

/-- Model of a compiled Go regular expression (regexp.Regexp) at its
interface boundary: the two methods the program uses.  MatchString reports
whether the pattern matches somewhere in the string (unanchored);
ReplaceAllStringFunc rewrites each match by the supplied function. -/
structure Regexp where
  MatchString : String → Bool
  ReplaceAllStringFunc : String → (String → String) → String

/-- A raw byte stream (the body of a fetched S3 object), one Nat per byte. -/
abbrev ByteStream := List Nat

/-- ResultItem holds a single text match result and related metadata
(grepples.go).  WidthAdjust stores the difference in string length between
raw output and colourized output. -/
structure ResultItem where
  Text : String
  WidthAdjust : Int
deriving DecidableEq

/-- Task identifies a discovered piece of work that needs to be processed
somehow (grepples.go). -/
structure Task where
  Bucket : String
  Key : String
deriving DecidableEq

/-- Result holds the results for a single task (grepples.go). -/
structure Result where
  Task : Grepples.Task
  Output : List ResultItem
deriving DecidableEq

/-- RegexpMatcherFunc is a function that meets the required interface for
generating text regex search results (grepples.go). -/
abbrev RegexpMatcherFunc := Regexp → String → ResultItem × Bool

/-- Config holds core run configuration (grepples.go).  Go stores each field
behind a flag pointer; the embedding stores the pointed-to values. -/
structure Config where
  Colour : Bool
  Region : String
  Bucket : String
  Prefix : String
  KeyMatch : String
  ContentMatch : String
  MaxKeys : Int
  MaxWorkers : Int
  SortByKey : Bool
  TasksTicker : Bool
  ObjectKeys : Bool
  ExtraNewlines : Bool
  FitToTTY : Bool
  OnlyListKeyMatches : Bool
  OnlyListMatchingObjects : Bool
  MatcherFunc : RegexpMatcherFunc

/-- The raw commandline flag values consumed by ConfigureFromFlags. -/
structure Flags where
  Colour : Bool
  Region : String
  Bucket : String
  Prefix : String
  KeyMatch : String
  ContentMatch : String
  MaxKeys : Int
  MaxWorkers : Int
  SortByKey : Bool
  TasksTicker : Bool
  ObjectKeys : Bool
  ExtraNewlines : Bool
  FitToTTY : Bool
  OnlyListKeyMatches : Bool
  OnlyListMatchingObjects : Bool

/-- Model of aurora.Bold(aurora.Green(s)).String(): wraps s in the ANSI
escape sequence selecting bold green and the reset sequence.  The inserted
markup is pure ASCII, so its byte length equals its character length. -/
def auroraBoldGreen (s : String) : String :=
  "\x1b[1;32m" ++ s ++ "\x1b[0m"

/-- ColourizingMatcher implements the RegexpMatcherFunc function interface
and returns results highlighted in bold (grepples.go).  Go's len counts
bytes; the embedding counts characters, and the two length differences agree
because the inserted markup is ASCII. -/
def ColourizingMatcher (re : Regexp) (text : String) : ResultItem × Bool :=
  let ctext := re.ReplaceAllStringFunc text auroraBoldGreen
  if ctext ≠ text then
    ({ Text := ctext, WidthAdjust := (ctext.length : Int) - (text.length : Int) }, true)
  else
    ({ Text := "", WidthAdjust := 0 }, false)

/-- Matcher implements the RegexpMatcherFunc function interface and performs
regexp matching with no highlighting of any kind (grepples.go). -/
def Matcher (re : Regexp) (text : String) : ResultItem × Bool :=
  if re.MatchString text then
    ({ Text := text, WidthAdjust := 0 }, true)
  else
    ({ Text := "", WidthAdjust := 0 }, false)

/-- ConfigureFromFlags sets up a config based on commandline flags
(grepples.go).  The log.Fatalf rejecting -fit-to-tty together with -colour is
modelled as Except.error carrying the fatal message. -/
def ConfigureFromFlags (f : Flags) : Except String Config :=
  if f.FitToTTY && f.Colour then
    Except.error "cannot use -fit-to-tty and -colour simultaneously. Please choose one or the other"
  else
    Except.ok
      { Colour := f.Colour
        Region := f.Region
        Bucket := f.Bucket
        Prefix := f.Prefix
        KeyMatch := f.KeyMatch
        ContentMatch := f.ContentMatch
        MaxKeys := f.MaxKeys
        MaxWorkers := f.MaxWorkers
        SortByKey := f.SortByKey
        TasksTicker := f.TasksTicker
        ObjectKeys := f.ObjectKeys
        ExtraNewlines := f.ExtraNewlines
        FitToTTY := f.FitToTTY
        OnlyListKeyMatches := f.OnlyListKeyMatches
        OnlyListMatchingObjects := f.OnlyListMatchingObjects
        MatcherFunc := if f.Colour then ColourizingMatcher else Matcher }

/-- Model of Go's strings.HasSuffix: byte-wise suffix test.  The embedding
tests the character list; on valid UTF-8 the two agree because UTF-8 is a
self-synchronizing encoding (a byte-level suffix that is itself valid UTF-8,
such as ".gz" or ".bz2", is a suffix exactly of the character sequence). -/
def hasSuffix (s suffix : String) : Bool :=
  List.isSuffixOf suffix.data s.data

/-- make educated guesses as to whether a key is empty or not; by doing this
we can skip pointless s3:GetObject API calls (grepples.go). -/
def looksLikeNoContent (key : String) (length : Int) : Bool :=
  if length == 0 then true
  else if hasSuffix key ".bz2" && length == 14 then true
  else if hasSuffix key ".gz" && length == 20 then true
  else false

/-- One listed S3 object as seen by discoverObjects: its key and its declared
size (the s3.Object Key and Size fields). -/
structure S3Object where
  Key : String
  Size : Int
deriving DecidableEq

/-- discoverObjects lists objects matching a prefix in S3, filters out
objects that look like they are empty, filters out objects whose key does not
match a regex, and pushes the surviving S3 object keys onto a channel as
Tasks (grepples.go).  The listing collaborator is modelled by the pages it
returns (each page a list of objects, in the store's listing order); the
output channel is modelled by the list of Tasks pushed, in order.  matchre
is the compiled -key-match pattern. -/
def discoverObjects (bucket : String) (matchre : Regexp)
    (pages : List (List S3Object)) : List Grepples.Task :=
  (pages.map (fun page => page.filterMap (fun obj =>
    if matchre.MatchString obj.Key && !looksLikeNoContent obj.Key obj.Size then
      some { Bucket := bucket, Key := obj.Key }
    else none))).flatten

/-- The reader selected by TransparentExpandingReader: a gzip-decompressing
reader, a bzip2-decompressing reader, or a plain buffering reader, each over
the fetched byte stream (reader.go). -/
inductive Reader where
  | gzip (source : ByteStream)
  | bzip2 (source : ByteStream)
  | buffered (source : ByteStream)
deriving DecidableEq

deriving instance DecidableEq for Except

/-- Model of Go's path.Ext: the suffix of the final slash-separated element
beginning at its final dot, or the empty string when that element has no dot.
Both inspected characters are ASCII, so scanning characters agrees with Go's
byte scan on valid UTF-8. -/
def pathExt (s : String) : String :=
  let afterSlashRev := s.data.reverse.takeWhile (fun c => c ≠ '/')
  if afterSlashRev.contains '.' then
    String.mk ('.' :: (afterSlashRev.takeWhile (fun c => c ≠ '.')).reverse)
  else ""

/-- Model of Go's gzip.NewReader at construction time: it reads the stream's
gzip header immediately and fails with an error when the magic bytes
(0x1f 0x8b) are absent; on success it yields a gzip-decompressing reader
over the stream. -/
def gzipNewReader (source : ByteStream) : Except String Reader :=
  match source with
  | 0x1f :: 0x8b :: _ => Except.ok (Reader.gzip source)
  | _ => Except.error "gzip: invalid header"

/-- TransparentExpandingReader creates a Reader that transparently
decompresses based on filename.  Supports gzip and bzip2; falls back to
assuming uncompressed (reader.go).  bzip2.NewReader performs no up-front
validation, so that branch cannot fail; the default branch wraps the stream
in a buffering reader (bufio.NewReader). -/
def TransparentExpandingReader (key : String) (source : ByteStream) :
    Except String Reader :=
  let ext := pathExt key
  if ext == ".gz" then gzipNewReader source
  else if ext == ".bz2" then Except.ok (Reader.bzip2 source)
  else Except.ok (Reader.buffered source)

/-- Model of bufio.ScanLines' dropCR: strips one trailing carriage return. -/
def dropCR (s : String) : String :=
  if s.data.getLast? = some '\r' then String.mk s.data.dropLast else s

/-- The token emission of bufio.ScanLines, walking the decompressed text:
the first argument is the text still to scan, the second the current line
accumulated so far (in reverse).  A newline emits the accumulated line
(stripped of one trailing carriage return, per dropCR); end of input emits a
final token only when a partial line remains. -/
def scanLinesAux : List Char → List Char → List String
  | [], [] => []
  | [], acc => [dropCR (String.mk acc.reverse)]
  | c :: rest, acc =>
    if c = '\n' then dropCR (String.mk acc.reverse) :: scanLinesAux rest []
    else scanLinesAux rest (c :: acc)

/-- Model of scanning with bufio.Scanner under the default ScanLines split:
the newline-delimited lines of the input without their terminators, each
stripped of one trailing carriage return; a final newline does not produce a
trailing empty line, and a final line without a newline is still produced. -/
def scanLines (s : String) : List String :=
  scanLinesAux s.data []

/-- The scan loop of searchObject (grepples.go): apply the configured matcher
to each line in order and collect, in that order, the items of the lines
reported as matched. -/
def scanAndMatch (mf : RegexpMatcherFunc) (matchre : Regexp) (content : String) :
    List ResultItem :=
  (scanLines content).filterMap (fun line =>
    match mf matchre line with
    | (ri, true) => some ri
    | (_, false) => none)

/-- searchObject retrieves an object from S3 and scans it for matches,
decompressing if necessary with TransparentExpandingReader; returns a Result
(grepples.go).  matchre is the compiled -content-match pattern; getObject
models the s3 GetObject collaborator; readAll models draining the selected
reader (fetching plus decoding) to the decompressed text, which the
bufio.Scanner then splits into lines.  The Go code logs a
TransparentExpandingReader failure before returning it; logging is I/O and
is not part of the returned value. -/
def searchObject (config : Config) (matchre : Regexp)
    (getObject : Grepples.Task → Except String ByteStream)
    (readAll : Reader → String) (task : Grepples.Task) : Except String Result :=
  if config.OnlyListKeyMatches then
    Except.ok { Task := task, Output := [] }
  else
    match getObject task with
    | Except.error e => Except.error e
    | Except.ok body =>
      match TransparentExpandingReader task.Key body with
      | Except.error e => Except.error e
      | Except.ok reader =>
        Except.ok { Task := task
                    Output := scanAndMatch config.MatcherFunc matchre (readAll reader) }

/-- One worker goroutine's dequeue loop (main, grepples.go): repeatedly take
a task and run searchObject; on an error the worker logs it and returns nil,
so it stops without retrying, pulls no further tasks, and contributes no
error to the errgroup.  Returns the Results the worker delivered, in order,
and the error value the goroutine returned to the errgroup.  The ctx.Done
branch of the result handoff never fires in this model: workers always
return nil and a discovery failure exits the process via log.Fatalf, so the
shared context is never cancelled. -/
def workerLoop (config : Config) (matchre : Regexp)
    (getObject : Grepples.Task → Except String ByteStream)
    (readAll : Reader → String) :
    List Grepples.Task → List Result × Option String
  | [] => ([], none)
  | t :: rest =>
    match searchObject config matchre getObject readAll t with
    | Except.error _ => ([], none)
    | Except.ok r =>
      ((r :: (workerLoop config matchre getObject readAll rest).1),
       (workerLoop config matchre getObject readAll rest).2)

/-- The worker pool (main, grepples.go): each worker runs its dequeue loop
over the tasks it pulls from the shared queue; assignment fixes one such
schedule (one inner list per worker).  The collected output concatenates
what each worker delivered — one representative arrival order on the result
channel — and the pool's error is the first worker error, if any. -/
def runWorkers (config : Config) (matchre : Regexp)
    (getObject : Grepples.Task → Except String ByteStream)
    (readAll : Reader → String)
    (assignment : List (List Grepples.Task)) : List Result × Option String :=
  match assignment with
  | [] => ([], none)
  | ts :: rest =>
    ((workerLoop config matchre getObject readAll ts).1
       ++ (runWorkers config matchre getObject readAll rest).1,
     ((workerLoop config matchre getObject readAll ts).2).orElse
       (fun _ => (runWorkers config matchre getObject readAll rest).2))

/-- Lexicographic comparison of character sequences by code point, the
order Go's byte-wise string comparison induces on valid UTF-8 (UTF-8 is an
order-preserving encoding). -/
def lexLess : List Char → List Char → Bool
  | [], [] => false
  | [], _ :: _ => true
  | _ :: _, [] => false
  | a :: as, b :: bs =>
    if a.toNat < b.toNat then true
    else if b.toNat < a.toNat then false
    else lexLess as bs

/-- Go's `a < b` on strings: byte-wise lexicographic comparison. -/
def strLess (a b : String) : Bool :=
  lexLess a.data b.data

/-- ByTaskKey.Less (grepples.go): strict comparison of task keys. -/
def byTaskKeyLess (a b : Result) : Bool :=
  strLess a.Task.Key b.Task.Key

/-- The non-strict order sort.Sort establishes from ByTaskKey.Less: a may
precede b in the sorted slice iff not Less b a. -/
def byTaskKeyLe (a b : Result) : Bool :=
  !byTaskKeyLess b a

/-- sort.Sort(ByTaskKey(results)) (printResults, grepples.go).  Go's sort
guarantees exactly a permutation of the slice ordered by the Less relation;
it is modelled by an insertion sort, which satisfies that contract and with
which Go's algorithm coincides on slices below its quicksort threshold. -/
def sortByTaskKey (results : List Result) : List Result :=
  List.insertionSort (fun a b => byTaskKeyLe a b = true) results

/-- leftN returns the n leftmost bytes (characters, in the embedding) of s
when 0 < n ≤ len s, and the whole string when n = 0 or n > len s (utility
file).  For negative n Go's s[:n] panics, modelled as none. -/
def leftN (s : String) (n : Int) : Option String :=
  if n == 0 then some s
  else if n > (s.data.length : Int) then some s
  else if n < 0 then none
  else some (String.mk (s.data.take n.toNat))

/-- The non-fit-to-tty output path of printResults (grepples.go): Go inspects
line.Text[len(line.Text)-1], which panics when the text is empty (modelled
as none), and appends a newline when the last byte is not one.  The last
byte is a newline iff the last character is, since UTF-8 continuation bytes
are not ASCII. -/
def ensureNewline (s : String) : Option String :=
  match s.data.getLast? with
  | none => none
  | some c => if c ≠ '\n' then some (s ++ "\n") else some s

/-- The per-result rendering performed by the loop body of printResults
(grepples.go): in a key-only listing mode print just the key; otherwise skip
results with no output, print an optional header with the key and match
count, each matched line (truncated via leftN under -fit-to-tty, otherwise
newline-terminated), and the optional trailing blank lines.  none models a
panic inside the loop body. -/
def renderResult (config : Config) (ttyWidth : Int) (r : Result) : Option String :=
  if config.OnlyListKeyMatches || config.OnlyListMatchingObjects then
    some (r.Task.Key ++ "\n")
  else if r.Output.length == 0 then
    some ""
  else do
    let body ← r.Output.foldlM (fun acc line =>
      if config.FitToTTY then
        (leftN line.Text (ttyWidth + line.WidthAdjust)).map (fun t => acc ++ t ++ "\n")
      else
        (ensureNewline line.Text).map (fun t => acc ++ t)) ""
    some ((if config.ObjectKeys then
            r.Task.Key ++ " (" ++ toString r.Output.length ++ " matches):\n"
          else "")
      ++ body
      ++ (if config.ExtraNewlines then "\n" else "")
      ++ (if config.ObjectKeys then "\n" else ""))

/-- printResults reads all the results and outputs them according to config
(grepples.go): it buffers every Result from the channel (the input list, in
arrival order), sorts them by task key, and renders each in sorted order.
ttyWidth stands for the terminal-width collaborator, read once before the
loop.  The produced value is the full stdout text, or none when rendering
panics. -/
def printResults (config : Config) (ttyWidth : Int) (output : List Result) :
    Option String :=
  (sortByTaskKey output).foldlM
    (fun acc r => (renderResult config ttyWidth r).map (fun t => acc ++ t)) ""

/-- main (grepples.go) with the pipeline sequentialized: configuration, then
discovery, then the workers under one schedule, then printResults.
Except.error models log.Fatalf — a nonzero process exit before any report is
produced.  Note that main discards the errgroup's error (workerGroup.Wait()
runs in a goroutine whose result is dropped), so worker errors never affect
the exit status. -/
def runGrepples (f : Flags) (keyRe contentRe : Regexp)
    (pages : List (List S3Object))
    (getObject : Grepples.Task → Except String ByteStream)
    (readAll : Reader → String) (ttyWidth : Int) : Except String (Option String) :=
  match ConfigureFromFlags f with
  | Except.error e => Except.error e
  | Except.ok config =>
    let tasks := discoverObjects f.Bucket keyRe pages
    let (results, _) := workerLoop config contentRe getObject readAll tasks
    Except.ok (printResults config ttyWidth results)

/-- The claim's looks-empty signature predicate, written from the spec's
words: declared size exactly 0, or exactly 14 for a key ending in .bz2, or
exactly 20 for a key ending in .gz. -/
def looksEmptySpec (key : String) (size : Int) : Bool :=
  size == 0 || (hasSuffix key ".bz2" && size == 14) || (hasSuffix key ".gz" && size == 20)

/-- A concrete Regexp collaborator instance modelling the empty pattern ""
(the program's default key and content pattern): it matches every string.
Only its MatchString method is exercised where this instance is used. -/
def reEmptyPattern : Regexp :=
  { MatchString := fun _ => true
    ReplaceAllStringFunc := fun text _ => text }

/-- Whether a character sequence contains an occurrence of "foo". -/
def containsFoo : List Char → Bool
  | 'f' :: 'o' :: 'o' :: _ => true
  | _ :: rest => containsFoo rest
  | [] => false

/-- Rewrites each leftmost non-overlapping occurrence of "foo" by rep. -/
def replaceFooAux (rep : List Char) : List Char → List Char
  | 'f' :: 'o' :: 'o' :: rest => rep ++ replaceFooAux rep rest
  | c :: rest => c :: replaceFooAux rep rest
  | [] => []

/-- A concrete Regexp collaborator instance modelling the literal pattern
"foo": MatchString reports an occurrence of "foo", and ReplaceAllStringFunc
rewrites each non-overlapping leftmost occurrence by the supplied function
applied to the matched text. -/
def reFoo : Regexp :=
  { MatchString := fun s => containsFoo s.data
    ReplaceAllStringFunc := fun text f =>
      String.mk (replaceFooAux (f "foo").data text.data) }

/-- A plain full-report configuration: no colour, no fit-to-tty, no key-only
modes, headers and extra newlines on, plain Matcher.  Used to instantiate
theorems at concrete inputs. -/
def cfgPlainReport : Config :=
  { Colour := false
    Region := "us-west-2"
    Bucket := "b"
    Prefix := ""
    KeyMatch := ""
    ContentMatch := ""
    MaxKeys := 1000
    MaxWorkers := 250
    SortByKey := true
    TasksTicker := false
    ObjectKeys := true
    ExtraNewlines := true
    FitToTTY := false
    OnlyListKeyMatches := false
    OnlyListMatchingObjects := false
    MatcherFunc := Matcher }

/-- A GetObject collaborator whose fetches always fail. -/
def failingGetObject : Grepples.Task → Except String ByteStream :=
  fun _ => Except.error "AccessDenied"

/-- Flag values enabling both -colour and -fit-to-tty, otherwise defaults. -/
def flagsColourAndFit : Flags :=
  { Colour := true
    Region := "us-west-2"
    Bucket := ""
    Prefix := ""
    KeyMatch := ""
    ContentMatch := ""
    MaxKeys := 1000
    MaxWorkers := 250
    SortByKey := true
    TasksTicker := false
    ObjectKeys := true
    ExtraNewlines := true
    FitToTTY := true
    OnlyListKeyMatches := false
    OnlyListMatchingObjects := false }


/-! ## Order theory for the byte-wise key comparison -/

/-- lexLess is asymmetric. -/
theorem lexLess_asymm : ∀ (as bs : List Char),
    lexLess as bs = true → lexLess bs as = false
  | [], [], h => by simp [lexLess] at h
  | [], _ :: _, _ => by simp [lexLess]
  | _ :: _, [], h => by simp [lexLess] at h
  | a :: as, b :: bs, h => by
    simp only [lexLess] at h ⊢
    by_cases hab : a.toNat < b.toNat
    · have hba : ¬ b.toNat < a.toNat := by omega
      simp [hab, hba]
    · by_cases hba : b.toNat < a.toNat
      · simp [hab, hba] at h
      · simp only [hab, hba, if_false] at h ⊢
        exact lexLess_asymm as bs h

/-- Two character sequences neither of which is lexLess than the other are
equal. -/
theorem lexLess_conn : ∀ (as bs : List Char),
    lexLess as bs = false → lexLess bs as = false → as = bs
  | [], [], _, _ => rfl
  | [], _ :: _, h1, _ => by simp [lexLess] at h1
  | _ :: _, [], _, h2 => by simp [lexLess] at h2
  | a :: as, b :: bs, h1, h2 => by
    simp only [lexLess] at h1 h2
    by_cases hab : a.toNat < b.toNat
    · simp [hab] at h1
    · by_cases hba : b.toNat < a.toNat
      · simp [hba] at h2
      · simp only [hab, hba, if_false] at h1 h2
        have hchar : a = b := by
          have hn : a.toNat = b.toNat := by omega
          exact Char.ext (UInt32.toNat.inj hn)
        rw [hchar, lexLess_conn as bs h1 h2]

/-- lexLess is transitive. -/
theorem lexLess_trans : ∀ (as bs cs : List Char),
    lexLess as bs = true → lexLess bs cs = true → lexLess as cs = true
  | [], _, _ :: _, _, _ => by simp [lexLess]
  | [], b, [], _, h2 => by cases b <;> simp [lexLess] at h2
  | _ :: _, [], _, h1, _ => by simp [lexLess] at h1
  | _ :: _, _ :: _, [], _, h2 => by simp [lexLess] at h2
  | a :: as, b :: bs, c :: cs, h1, h2 => by
    simp only [lexLess] at h1 h2 ⊢
    by_cases hab : a.toNat < b.toNat
    · by_cases hbc : b.toNat < c.toNat
      · have : a.toNat < c.toNat := by omega
        simp [this]
      · by_cases hcb : c.toNat < b.toNat
        · simp [hbc, hcb] at h2
        · have : a.toNat < c.toNat := by omega
          simp [this]
    · by_cases hba : b.toNat < a.toNat
      · simp [hab, hba] at h1
      · by_cases hbc : b.toNat < c.toNat
        · have : a.toNat < c.toNat := by omega
          simp [this]
        · by_cases hcb : c.toNat < b.toNat
          · simp [hbc, hcb] at h2
          · have hac : ¬ a.toNat < c.toNat := by omega
            have hca : ¬ c.toNat < a.toNat := by omega
            simp only [hab, hba, if_false] at h1
            simp only [hbc, hcb, if_false] at h2
            simp only [hac, hca, if_false]
            exact lexLess_trans as bs cs h1 h2

/-- Strings with equal character data are equal. -/
theorem strEq_of_data {s t : String} (h : s.data = t.data) : s = t := by
  cases s
  cases t
  exact congrArg String.mk h

/-- byTaskKeyLe a b holds exactly when the key of b is not strictly below
the key of a. -/
theorem byTaskKeyLe_eq_true_iff (a b : Result) :
    byTaskKeyLe a b = true ↔ lexLess b.Task.Key.data a.Task.Key.data = false := by
  simp [byTaskKeyLe, byTaskKeyLess, strLess]

/-- byTaskKeyLe is total. -/
theorem byTaskKeyLe_total (a b : Result) :
    byTaskKeyLe a b = true ∨ byTaskKeyLe b a = true := by
  rw [byTaskKeyLe_eq_true_iff, byTaskKeyLe_eq_true_iff]
  cases h : lexLess b.Task.Key.data a.Task.Key.data with
  | false => exact Or.inl rfl
  | true => exact Or.inr (lexLess_asymm _ _ h)

/-- byTaskKeyLe is transitive. -/
theorem byTaskKeyLe_trans (a b c : Result) :
    byTaskKeyLe a b = true → byTaskKeyLe b c = true → byTaskKeyLe a c = true := by
  rw [byTaskKeyLe_eq_true_iff, byTaskKeyLe_eq_true_iff, byTaskKeyLe_eq_true_iff]
  intro h1 h2
  cases h : lexLess c.Task.Key.data a.Task.Key.data with
  | false => rfl
  | true =>
    exfalso
    cases hbc : lexLess b.Task.Key.data c.Task.Key.data with
    | true => simp [lexLess_trans _ _ _ hbc h] at h1
    | false =>
      have hb := lexLess_conn _ _ hbc h2
      rw [← hb] at h
      simp [h] at h1

/-- If a precedes b under byTaskKeyLe and their keys differ, then the key of
a is strictly below the key of b. -/
theorem byTaskKeyLess_of_le_of_ne (a b : Result)
    (h1 : byTaskKeyLe a b = true) (h2 : a.Task.Key ≠ b.Task.Key) :
    byTaskKeyLess a b = true := by
  rw [byTaskKeyLe_eq_true_iff] at h1
  cases h : byTaskKeyLess a b with
  | true => rfl
  | false =>
    exfalso
    simp only [byTaskKeyLess, strLess] at h
    exact h2 (strEq_of_data (lexLess_conn _ _ h h1))

/-- sortByTaskKey permutes its input. -/
theorem sortByTaskKey_perm (l : List Result) :
    List.Perm (sortByTaskKey l) l :=
  List.perm_insertionSort _ l

/-- sortByTaskKey output is ascending under byTaskKeyLe: no later key is
strictly below an earlier one. -/
theorem sortByTaskKey_sorted (l : List Result) :
    (sortByTaskKey l).Pairwise (fun a b => byTaskKeyLe a b = true) := by
  haveI : IsTotal Result (fun a b => byTaskKeyLe a b = true) := ⟨byTaskKeyLe_total⟩
  haveI : IsTrans Result (fun a b => byTaskKeyLe a b = true) := ⟨byTaskKeyLe_trans⟩
  exact List.sorted_insertionSort _ l

/-- When the keys are pairwise distinct, the sorted order is unique: the
sort of any permutation of the input list is the same list. -/
theorem sortByTaskKey_eq_of_perm (l1 l2 : List Result)
    (hperm : List.Perm l1 l2)
    (hnodup : (l1.map (fun r => r.Task.Key)).Nodup) :
    sortByTaskKey l1 = sortByTaskKey l2 := by
  haveI : IsAntisymm Result (fun a b => byTaskKeyLess a b = true) :=
    ⟨fun a b hab hba => by
      simp only [byTaskKeyLess, strLess] at hab hba
      simp [lexLess_asymm _ _ hab] at hba⟩
  have hne1 : l1.Pairwise (fun a b => a.Task.Key ≠ b.Task.Key) :=
    List.pairwise_map.mp hnodup
  have hs1 : (sortByTaskKey l1).Pairwise (fun a b => a.Task.Key ≠ b.Task.Key) :=
    ((sortByTaskKey_perm l1).pairwise_iff (fun h => Ne.symm h)).mpr hne1
  have hs2 : (sortByTaskKey l2).Pairwise (fun a b => a.Task.Key ≠ b.Task.Key) :=
    ((sortByTaskKey_perm l2).pairwise_iff (fun h => Ne.symm h)).mpr
      ((hperm.pairwise_iff (fun h => Ne.symm h)).mp hne1)
  refine List.eq_of_perm_of_sorted
    (r := fun a b => byTaskKeyLess a b = true)
    (((sortByTaskKey_perm l1).trans hperm).trans (sortByTaskKey_perm l2).symm)
    ?_ ?_
  · exact List.Pairwise.imp (fun h => byTaskKeyLess_of_le_of_ne _ _ h.1 h.2)
      ((sortByTaskKey_sorted l1).and hs1)
  · exact List.Pairwise.imp (fun h => byTaskKeyLess_of_le_of_ne _ _ h.1 h.2)
      ((sortByTaskKey_sorted l2).and hs2)

/-! ## Helper lemmas about the pipeline -/

/-- scanAndMatch keeps the matched items in scan order: it is an
order-preserving sublist of mapping the matcher over all scanned lines. -/
theorem scanAndMatch_sublist (mf : RegexpMatcherFunc) (matchre : Regexp)
    (content : String) :
    List.Sublist (scanAndMatch mf matchre content)
      ((scanLines content).map (fun line => (mf matchre line).1)) := by
  simp only [scanAndMatch]
  induction scanLines content with
  | nil => simp
  | cons a l ih =>
    rcases hfa : mf matchre a with ⟨b, mb⟩
    cases mb with
    | false =>
      simp only [List.filterMap_cons, List.map_cons, hfa]
      exact ih.cons _
    | true =>
      simp only [List.filterMap_cons, List.map_cons, hfa]
      exact ih.cons₂ _

/-- A worker's goroutine always hands the errgroup a nil error: both normal
completion and a search failure return nil. -/
theorem workerLoop_snd_none (config : Config) (matchre : Regexp)
    (getObject : Grepples.Task → Except String ByteStream)
    (readAll : Reader → String) :
    ∀ tasks : List Grepples.Task,
      (workerLoop config matchre getObject readAll tasks).2 = none
  | [] => rfl
  | t :: rest => by
    simp only [workerLoop]
    cases searchObject config matchre getObject readAll t with
    | error e => rfl
    | ok r => exact workerLoop_snd_none config matchre getObject readAll rest

/-- The pool error is nil for every schedule. -/
theorem runWorkers_snd_none (config : Config) (matchre : Regexp)
    (getObject : Grepples.Task → Except String ByteStream)
    (readAll : Reader → String) :
    ∀ assignment : List (List Grepples.Task),
      (runWorkers config matchre getObject readAll assignment).2 = none
  | [] => rfl
  | ts :: rest => by
    simp only [runWorkers, workerLoop_snd_none config matchre getObject readAll ts,
      runWorkers_snd_none config matchre getObject readAll rest]
    rfl

/-- The results collected from a pool schedule split over concatenation of
the schedule. -/
theorem runWorkers_fst_append (config : Config) (matchre : Regexp)
    (getObject : Grepples.Task → Except String ByteStream)
    (readAll : Reader → String) :
    ∀ ws1 ws2 : List (List Grepples.Task),
      (runWorkers config matchre getObject readAll (ws1 ++ ws2)).1
        = (runWorkers config matchre getObject readAll ws1).1
          ++ (runWorkers config matchre getObject readAll ws2).1
  | [], ws2 => by simp [runWorkers]
  | ts :: rest, ws2 => by
    simp only [List.cons_append, runWorkers, List.append_eq,
      runWorkers_fst_append config matchre getObject readAll rest ws2,
      List.append_assoc]

/-- The Go predicate looksLikeNoContent agrees pointwise with the spec's
looks-empty signature description. -/
theorem looksLikeNoContent_eq_spec (key : String) (size : Int) :
    looksLikeNoContent key size = looksEmptySpec key size := by
  simp only [looksLikeNoContent, looksEmptySpec]
  cases h0 : size == 0 <;> cases hb : hasSuffix key ".bz2" <;>
    cases h14 : size == 14 <;> cases hg : hasSuffix key ".gz" <;>
    cases h20 : size == 20 <;> simp [h0, hb, h14, hg, h20]

/-! ## Claim theorems -/

/-- C1 (amended): for Results whose keys are pairwise distinct — as keys of
objects listed from one bucket are — printResults produces the same rendered
output for every arrival order of the same multiset, and the rendering order
is ascending by key (byTaskKeyLe, the byte-wise lexicographic order).  With
duplicate keys the relative order of equal-key Results follows arrival
order, see the counterexample. -/
theorem printResults_deterministic_of_distinct_keys (config : Config)
    (ttyWidth : Int) (l1 l2 : List Result) (hperm : List.Perm l1 l2)
    (hnodup : (l1.map (fun r => r.Task.Key)).Nodup) :
    printResults config ttyWidth l1 = printResults config ttyWidth l2
    ∧ (sortByTaskKey l1).Pairwise (fun a b => byTaskKeyLe a b = true) := by
  refine ⟨?_, sortByTaskKey_sorted l1⟩
  simp only [printResults, sortByTaskKey_eq_of_perm l1 l2 hperm hnodup]

/-- C1 witness: two distinct-key Results render identically from either
arrival order. -/
theorem printResults_deterministic_witness :
    printResults cfgPlainReport 80
        [⟨⟨"b", "kb"⟩, [⟨"x", 0⟩]⟩, ⟨⟨"b", "ka"⟩, [⟨"y", 0⟩]⟩]
      = printResults cfgPlainReport 80
        [⟨⟨"b", "ka"⟩, [⟨"y", 0⟩]⟩, ⟨⟨"b", "kb"⟩, [⟨"x", 0⟩]⟩] :=
  (printResults_deterministic_of_distinct_keys cfgPlainReport 80 _ _
    (List.Perm.swap _ _ _) (by decide)).1

/-- C1 counterexample: with two Results sharing one key, the rendered output
depends on the arrival order, so the claim as stated over every multiset of
Results fails. -/
theorem printResults_arrival_dependent_on_duplicate_keys :
    List.Perm
      [(⟨⟨"b", "k"⟩, [⟨"a", 0⟩]⟩ : Result), ⟨⟨"b", "k"⟩, [⟨"c", 0⟩]⟩]
      [⟨⟨"b", "k"⟩, [⟨"c", 0⟩]⟩, ⟨⟨"b", "k"⟩, [⟨"a", 0⟩]⟩]
    ∧ printResults cfgPlainReport 80
        [⟨⟨"b", "k"⟩, [⟨"a", 0⟩]⟩, ⟨⟨"b", "k"⟩, [⟨"c", 0⟩]⟩]
      ≠ printResults cfgPlainReport 80
        [⟨⟨"b", "k"⟩, [⟨"c", 0⟩]⟩, ⟨⟨"b", "k"⟩, [⟨"a", 0⟩]⟩] :=
  ⟨List.Perm.swap _ _ _, by decide⟩

/-- C2: when searchObject fails on a task, the worker that pulled it delivers
nothing further and returns a nil errgroup error (it neither retries nor
pulls more tasks); the other workers' deliveries are exactly preserved, and
the pool-level error stays nil, so the failure alone cannot flip the run's
overall status. -/
theorem searchObject_error_halts_only_its_worker (config : Config)
    (matchre : Regexp) (getObject : Grepples.Task → Except String ByteStream)
    (readAll : Reader → String) (t : Grepples.Task) (rest : List Grepples.Task)
    (ws1 ws2 : List (List Grepples.Task)) (e : String)
    (h : searchObject config matchre getObject readAll t = Except.error e) :
    workerLoop config matchre getObject readAll (t :: rest) = ([], none)
    ∧ (runWorkers config matchre getObject readAll (ws1 ++ (t :: rest) :: ws2)).1
        = (runWorkers config matchre getObject readAll ws1).1
          ++ (runWorkers config matchre getObject readAll ws2).1
    ∧ (runWorkers config matchre getObject readAll (ws1 ++ (t :: rest) :: ws2)).2
        = none := by
  have h1 : workerLoop config matchre getObject readAll (t :: rest) = ([], none) := by
    simp [workerLoop, h]
  refine ⟨h1, ?_, runWorkers_snd_none config matchre getObject readAll _⟩
  rw [runWorkers_fst_append]
  simp [runWorkers, h1]

/-- C2 witness: a failing fetch stops the worker with no results and a nil
errgroup error. -/
theorem searchObject_error_witness :
    workerLoop cfgPlainReport reEmptyPattern failingGetObject (fun _ => "")
        [⟨"b", "k"⟩, ⟨"b", "k2"⟩] = ([], none) :=
  (searchObject_error_halts_only_its_worker cfgPlainReport reEmptyPattern
    failingGetObject (fun _ => "") ⟨"b", "k"⟩ [⟨"b", "k2"⟩] [] [] "AccessDenied"
    rfl).1

/-- C3: discoverObjects turns a listed object into a Task exactly when its
key matches the key pattern and its declared size is not a looks-empty
signature for its suffix (0; 14 for .bz2; 20 for .gz); an object whose size
is exactly the signature yields no Task (hence no fetch, as only Tasks are
fetched), while one byte larger yields a Task when the key matches. -/
theorem discoverObjects_filter_spec :
    (∀ (bucket : String) (matchre : Regexp) (pages : List (List S3Object)),
      discoverObjects bucket matchre pages
        = pages.flatten.filterMap (fun obj =>
            if matchre.MatchString obj.Key && !looksEmptySpec obj.Key obj.Size then
              some { Bucket := bucket, Key := obj.Key }
            else none))
    ∧ (∀ (bucket : String) (matchre : Regexp) (key : String) (size : Int),
        matchre.MatchString key = true → looksEmptySpec key size = true →
          discoverObjects bucket matchre [[{ Key := key, Size := size }]] = []
          ∧ looksEmptySpec key (size + 1) = false
          ∧ discoverObjects bucket matchre [[{ Key := key, Size := size + 1 }]]
              = [{ Bucket := bucket, Key := key }]) := by
  constructor
  · intro bucket matchre pages
    simp only [discoverObjects, looksLikeNoContent_eq_spec]
    exact (List.filterMap_flatten _ pages).symm
  · intro bucket matchre key size hm hs
    have hnext : looksEmptySpec key (size + 1) = false := by
      simp only [looksEmptySpec, Bool.or_eq_true, Bool.and_eq_true, beq_iff_eq] at hs
      rw [Bool.eq_false_iff]
      intro hcon
      simp only [looksEmptySpec, Bool.or_eq_true, Bool.and_eq_true, beq_iff_eq] at hcon
      rcases hs with (h | ⟨hb, h⟩) | ⟨hg, h⟩ <;>
        rcases hcon with (h2 | ⟨hb2, h2⟩) | ⟨hg2, h2⟩ <;> omega
    refine ⟨?_, hnext, ?_⟩
    · simp [discoverObjects, looksLikeNoContent_eq_spec, hm, hs]
    · simp [discoverObjects, looksLikeNoContent_eq_spec, hm, hnext]

/-- C3 witness: a .gz object of declared size exactly 20 is skipped, and of
size 21 becomes a Task. -/
theorem discoverObjects_filter_witness :
    discoverObjects "b" reEmptyPattern [[⟨"a.gz", 20⟩]] = []
    ∧ discoverObjects "b" reEmptyPattern [[⟨"a.gz", (20 : Int) + 1⟩]]
        = [⟨"b", "a.gz"⟩] := by
  have h := discoverObjects_filter_spec.2 "b" reEmptyPattern "a.gz" 20 rfl (by decide)
  exact ⟨h.1, h.2.2⟩

/-- C4: enabling both -colour and -fit-to-tty makes configuration fail
fatally with the incompatibility message, and the whole run exits with that
error before any discovery, fetching or scanning: runGrepples produces no
report for any listing, fetcher or reader collaborator. -/
theorem configure_rejects_fit_with_colour (f : Flags) (keyRe contentRe : Regexp)
    (pages : List (List S3Object))
    (getObject : Grepples.Task → Except String ByteStream)
    (readAll : Reader → String) (ttyWidth : Int)
    (hfit : f.FitToTTY = true) (hcol : f.Colour = true) :
    ConfigureFromFlags f
      = Except.error "cannot use -fit-to-tty and -colour simultaneously. Please choose one or the other"
    ∧ runGrepples f keyRe contentRe pages getObject readAll ttyWidth
      = Except.error "cannot use -fit-to-tty and -colour simultaneously. Please choose one or the other" := by
  have h1 : ConfigureFromFlags f
      = Except.error "cannot use -fit-to-tty and -colour simultaneously. Please choose one or the other" := by
    simp [ConfigureFromFlags, hfit, hcol]
  exact ⟨h1, by simp [runGrepples, h1]⟩

/-- C4 witness: with both flags set, configuration is rejected. -/
theorem configure_rejects_witness :
    ConfigureFromFlags flagsColourAndFit
      = Except.error "cannot use -fit-to-tty and -colour simultaneously. Please choose one or the other" :=
  (configure_rejects_fit_with_colour flagsColourAndFit reEmptyPattern
    reEmptyPattern [] failingGetObject (fun _ => "") 80 rfl rfl).1

/-- C5: ColourizingMatcher returns the line with every match rewritten into
emphasis markup (the ReplaceAllStringFunc of the line by auroraBoldGreen),
reports matched exactly when that annotated text differs from the input,
reports WidthAdjust equal to the length difference between annotated text
and original line, and returns the empty ResultItem when it reports no
match. -/
theorem colourizingMatcher_spec (re : Regexp) (text : String) :
    ((ColourizingMatcher re text).2 = true
      ↔ re.ReplaceAllStringFunc text auroraBoldGreen ≠ text)
    ∧ ((ColourizingMatcher re text).2 = true →
        (ColourizingMatcher re text).1.Text
            = re.ReplaceAllStringFunc text auroraBoldGreen
        ∧ (ColourizingMatcher re text).1.WidthAdjust
            = ((re.ReplaceAllStringFunc text auroraBoldGreen).length : Int)
              - (text.length : Int))
    ∧ ((ColourizingMatcher re text).2 = false →
        (ColourizingMatcher re text).1 = { Text := "", WidthAdjust := 0 }) := by
  by_cases h : re.ReplaceAllStringFunc text auroraBoldGreen = text <;>
    simp [ColourizingMatcher, h]

/-- C5 witness: on the literal pattern foo and a line containing it, the
matcher reports a match and returns the annotated text. -/
theorem colourizingMatcher_witness :
    (ColourizingMatcher reFoo "a foo b").2 = true
    ∧ (ColourizingMatcher reFoo "a foo b").1.Text
        = reFoo.ReplaceAllStringFunc "a foo b" auroraBoldGreen := by
  have h := colourizingMatcher_spec reFoo "a foo b"
  have hm : (ColourizingMatcher reFoo "a foo b").2 = true := h.1.mpr (by decide)
  exact ⟨hm, (h.2.1 hm).1⟩

/-- C6: a Result with no ResultItems contributes nothing to full-report
output — neither header nor content — while in either key-only listing mode
its key is printed on its own line; the same holds through printResults. -/
theorem emptyResult_rendering (config : Config) (ttyWidth : Int)
    (task : Grepples.Task) :
    renderResult config ttyWidth ⟨task, []⟩
      = some (if config.OnlyListKeyMatches || config.OnlyListMatchingObjects
              then task.Key ++ "\n" else "")
    ∧ printResults config ttyWidth [⟨task, []⟩]
      = some (if config.OnlyListKeyMatches || config.OnlyListMatchingObjects
              then task.Key ++ "\n" else "") := by
  have h1 : renderResult config ttyWidth ⟨task, []⟩
      = some (if config.OnlyListKeyMatches || config.OnlyListMatchingObjects
              then task.Key ++ "\n" else "") := by
    cases h : config.OnlyListKeyMatches || config.OnlyListMatchingObjects <;>
      simp [renderResult, h]
  refine ⟨h1, ?_⟩
  simp [printResults, sortByTaskKey, List.insertionSort, h1]

/-- C7: TransparentExpandingReader selects the decompression strategy purely
from the file-extension suffix of the key — .gz selects the gzip reader
(whose construction can fail), .bz2 the bzip2 reader, anything else the
plain buffering reader over the byte stream — and a setup error can only
arise for the .gz suffix. -/
theorem transparentExpandingReader_suffix_selection (key : String)
    (source : ByteStream) :
    TransparentExpandingReader key source
      = (if pathExt key == ".gz" then gzipNewReader source
         else if pathExt key == ".bz2" then Except.ok (Reader.bzip2 source)
         else Except.ok (Reader.buffered source))
    ∧ (∀ e : String, TransparentExpandingReader key source = Except.error e →
        pathExt key = ".gz") := by
  refine ⟨rfl, ?_⟩
  intro e he
  simp only [TransparentExpandingReader] at he
  by_cases h1 : pathExt key == ".gz"
  · exact eq_of_beq h1
  · simp only [h1, if_false] at he
    by_cases h2 : pathExt key == ".bz2" <;> simp [h2] at he

/-- C7 witness: a failing gzip setup can only have come from a .gz suffix,
and a suffix-less extension falls back to the plain buffering reader. -/
theorem transparentExpandingReader_witness :
    pathExt "bad.gz" = ".gz"
    ∧ TransparentExpandingReader "a.txt" [7] = Except.ok (Reader.buffered [7]) := by
  refine ⟨(transparentExpandingReader_suffix_selection "bad.gz" [0]).2
    "gzip: invalid header" rfl, ?_⟩
  exact (transparentExpandingReader_suffix_selection "a.txt" [7]).1.trans (by decide)

/-- C8: outside key-listing-only mode, a successful searchObject returns
exactly the matcher results of the scanned lines in order: its Output is
scanAndMatch of the decompressed content, which is an order-preserving
sublist of the per-line matcher results over the lines in their original
order. -/
theorem searchObject_preserves_line_order (config : Config) (matchre : Regexp)
    (getObject : Grepples.Task → Except String ByteStream)
    (readAll : Reader → String) (task : Grepples.Task) (body : ByteStream)
    (reader : Reader)
    (honly : config.OnlyListKeyMatches = false)
    (hget : getObject task = Except.ok body)
    (hread : TransparentExpandingReader task.Key body = Except.ok reader) :
    searchObject config matchre getObject readAll task
      = Except.ok { Task := task
                    Output := scanAndMatch config.MatcherFunc matchre (readAll reader) }
    ∧ List.Sublist (scanAndMatch config.MatcherFunc matchre (readAll reader))
        ((scanLines (readAll reader)).map
          (fun line => (config.MatcherFunc matchre line).1)) := by
  constructor
  · simp [searchObject, honly, hget, hread]
  · exact scanAndMatch_sublist config.MatcherFunc matchre (readAll reader)

/-- C8 witness: scanning three lines of which the first and third match
yields those two matches in line order. -/
theorem searchObject_line_order_witness :
    searchObject cfgPlainReport reFoo (fun _ => Except.ok [102])
        (fun _ => "foo\nbar\nfoo") ⟨"b", "a.log"⟩
      = Except.ok ⟨⟨"b", "a.log"⟩, [⟨"foo", 0⟩, ⟨"foo", 0⟩]⟩ := by
  have h := (searchObject_preserves_line_order cfgPlainReport reFoo
    (fun _ => Except.ok [102]) (fun _ => "foo\nbar\nfoo") ⟨"b", "a.log"⟩
    [102] (Reader.buffered [102]) rfl rfl rfl).1
  rw [h]
  decide

/-- C9: printResults indexes the last byte of each matched line without an
emptiness guard: on a Result holding an empty-text ResultItem, full-report
rendering without -fit-to-tty panics (none); and the plain Matcher produces
exactly such an empty ResultItem whenever the content pattern matches an
empty line, as the default empty pattern does. -/
theorem printResults_panics_on_empty_text :
    printResults cfgPlainReport 80 [⟨⟨"b", "k"⟩, [⟨"", 0⟩]⟩] = none
    ∧ Matcher reEmptyPattern "" = (⟨"", 0⟩, true) := by
  decide

/-- C10: printResults output is identical for configurations differing only
in the SortByKey flag — the flag is stored by configuration but never
consulted — and the output is unconditionally sorted (ascending under
byTaskKeyLe). -/
theorem printResults_ignores_sortByKey (config : Config) (b : Bool)
    (ttyWidth : Int) (output : List Result) :
    printResults { config with SortByKey := b } ttyWidth output
      = printResults config ttyWidth output
    ∧ (sortByTaskKey output).Pairwise (fun x y => byTaskKeyLe x y = true) := by
  refine ⟨?_, sortByTaskKey_sorted output⟩
  cases config
  rfl

end Grepples
